import Mathlib

/-!
VolunTrack verification: a shallow embedding of the volunteer-management
application's data model (hub/models.py) and of the request handlers that
mutate it (hub/views.py, hub/forms.py, hub/decorators.py), together with
proofs of the behavioural properties of its signup ledger, event capacity
tracker, contribution approval state machine and coordinator management.

Modelling conventions:
- Database rows are structure values held in lists inside a single state
  record; primary keys are explicit id fields, and auto-increment is an
  explicit counter in the state.
- Each Django view that mutates state becomes a function from the state and
  the request parameters to Except HubError HubState; a request that fails
  (flash error message, HTTP 404, HTTP 403, or an uncaught database
  integrity error) leaves the database unchanged, which the Except error
  branch represents.
- Decimal hours (DecimalField with max_digits 5 and decimal_places 2) are
  an integer number of hundredths of an hour.
- Timestamps returned by timezone.now are passed in explicitly as a
  natural-number parameter.
- created_at fields (auto_now_add) are omitted: no modelled operation ever
  reads them.
-/

namespace VolunTrack

abbrev UserId := Nat
abbrev EventId := Nat
abbrev SignupId := Nat
abbrev DeptId := Nat
abbrev ContribId := Nat
abbrev Time := Nat

/-- Event.STATUS_CHOICES in hub/models.py. -/
inductive EventStatus
  | SCHEDULED
  | COMPLETED
  | CANCELLED
  deriving DecidableEq, Repr

/-- Signup.STATUS_CHOICES in hub/models.py. -/
inductive SignupStatus
  | CONFIRMED
  | CANCELLED
  deriving DecidableEq, Repr

/-- Contribution.STATUS_CHOICES in hub/models.py. -/
inductive ContribStatus
  | PENDING
  | APPROVED
  | REJECTED
  deriving DecidableEq, Repr

/-- Profile model (hub/models.py): one-to-one with a user, role flag and
optional department. The user field is the one-to-one key. -/
structure Profile where
  user : UserId
  is_coordinator : Bool
  department : Option DeptId
  phone : String
  deriving DecidableEq, Repr

/-- Event model (hub/models.py). Capacity 0 means unlimited. -/
structure Event where
  id : EventId
  title : String
  description : String
  department : Option DeptId
  date : Time
  location : String
  capacity : Nat
  status : EventStatus
  created_by : UserId
  deriving DecidableEq, Repr

/-- Signup model (hub/models.py): a user-event registration row. The pair
of user and event is subject to a unique-together constraint. -/
structure Signup where
  id : SignupId
  user : UserId
  event : EventId
  status : SignupStatus
  deriving DecidableEq, Repr

/-- Contribution model (hub/models.py): a logged claim of volunteer hours
with approval metadata. Hours are hundredths of an hour. -/
structure Contribution where
  id : ContribId
  user : UserId
  event : Option EventId
  department : DeptId
  date : Time
  hours : Int
  description : String
  status : ContribStatus
  approved_by : Option UserId
  approved_at : Option Time
  rejection_reason : String
  deriving DecidableEq, Repr

/-- The whole database state touched by the modelled handlers. Departments
are kept as their ids (the name field is never read by these handlers).
Every user is represented by their profile row, which the post_save signal
in hub/signals.py guarantees exists for every user. -/
structure HubState where
  departments : List DeptId
  profiles : List Profile
  events : List Event
  signups : List Signup
  contribs : List Contribution
  nextSignupId : SignupId
  nextContribId : ContribId
  deriving DecidableEq, Repr

/-- The error taxonomy of the handlers, one constructor per distinct
user-visible failure outcome:
- notFound: get_object_or_404 raised Http404;
- permissionDenied: the coordinator_required decorator raised
  PermissionDenied, or the self-demotion guard in coordinator_management
  refused the action;
- alreadySignedUp, eventFull: the flash error branches of event_signup;
- uniqueViolation: an IntegrityError from the unique-together constraint
  on Signup, uncaught by event_signup;
- validationError: form.is_valid() returned false and the form was
  re-rendered with field errors;
- eventNotScheduled, notSignedUp: the add_error branches of
  contribution_create;
- invalidState: an error class named by the specification only; no code
  path in the repository produces it. -/
inductive HubError
  | notFound
  | permissionDenied
  | alreadySignedUp
  | eventFull
  | uniqueViolation
  | validationError
  | eventNotScheduled
  | notSignedUp
  | invalidState
  deriving DecidableEq, Repr

/-- Number of Signup rows for the given event with status CONFIRMED:
Event.get_confirmed_count in hub/models.py. -/
def confirmedCount (signups : List Signup) (eid : EventId) : Nat :=
  signups.countP (fun s => s.event = eid ∧ s.status = SignupStatus.CONFIRMED)

/-- Event.get_confirmed_count (hub/models.py) on an event instance. -/
def Event.get_confirmed_count (ev : Event) (signups : List Signup) : Nat :=
  confirmedCount signups ev.id

/-- Event.get_remaining_capacity (hub/models.py): none when unlimited,
otherwise the remaining spots. Nat subtraction already truncates at zero
exactly like the max(0, ...) in the source. -/
def Event.get_remaining_capacity (ev : Event) (signups : List Signup) : Option Nat :=
  if ev.capacity = 0 then none
  else some (ev.capacity - ev.get_confirmed_count signups)

/-- Event.is_full (hub/models.py): false when capacity is 0 (unlimited),
otherwise whether the confirmed count has reached capacity. -/
def Event.is_full (ev : Event) (signups : List Signup) : Bool :=
  if ev.capacity = 0 then false
  else decide (ev.capacity ≤ ev.get_confirmed_count signups)

/-- The queryset event.signups.filter(user=u, status="CONFIRMED").exists()
used by event_signup and contribution_create in hub/views.py. -/
def has_confirmed_row (st : HubState) (u : UserId) (eid : EventId) : Bool :=
  st.signups.any (fun s => s.event = eid ∧ s.user = u ∧ s.status = SignupStatus.CONFIRMED)

/-- Whether any Signup row of either status exists for the pair: this is
what the unique_together ("user", "event") constraint on Signup
(hub/models.py) checks at insert time. -/
def has_any_row (st : HubState) (u : UserId) (eid : EventId) : Bool :=
  st.signups.any (fun s => s.user = u ∧ s.event = eid)

/-- Profile lookup for a user: request.user.profile. -/
def findProfile (st : HubState) (uid : UserId) : Option Profile :=
  st.profiles.find? (fun p => p.user = uid)

/-- The coordinator_required decorator (hub/decorators.py): the request
passes when the user has a profile whose is_coordinator flag is set. -/
def coordinator_required (st : HubState) (actor : UserId) : Bool :=
  match findProfile st actor with
  | some p => p.is_coordinator
  | none => false

/-- The event_signup view (hub/views.py lines 284-308). Looks up the event
(404 when absent), refuses when a CONFIRMED row already exists, refuses
when the event has a nonzero capacity already reached, and otherwise runs
Signup.objects.create, which the unique-together constraint on
(user, event) turns into an uncaught IntegrityError whenever any row for
the pair already exists. -/
def event_signup (st : HubState) (user : UserId) (pk : EventId) :
    Except HubError HubState :=
  match st.events.find? (fun ev => ev.id = pk) with
  | none => .error .notFound
  | some ev =>
    if has_confirmed_row st user ev.id then
      .error .alreadySignedUp
    else if ev.capacity ≠ 0 ∧ ev.capacity ≤ confirmedCount st.signups ev.id then
      .error .eventFull
    else if has_any_row st user ev.id then
      .error .uniqueViolation
    else
      .ok { st with
              signups := { id := st.nextSignupId, user := user, event := ev.id,
                           status := SignupStatus.CONFIRMED } :: st.signups,
              nextSignupId := st.nextSignupId + 1 }

/-- The signup_cancel view (hub/views.py lines 329-352), POST branch: the
lookup is scoped to rows owned by the requester with status CONFIRMED
(404 otherwise), and the fetched row is saved back with status CANCELLED.
Saving writes the instance's fields to the row with its primary key. -/
def signup_cancel (st : HubState) (user : UserId) (pk : SignupId) :
    Except HubError HubState :=
  match st.signups.find? (fun s => s.id = pk ∧ s.user = user ∧ s.status = SignupStatus.CONFIRMED) with
  | none => .error .notFound
  | some s0 =>
    .ok { st with
            signups := st.signups.map (fun s =>
              if s.id = pk then { s0 with status := SignupStatus.CANCELLED } else s) }

/-- The POST payload of contribution_create: the bound data of
ContributionForm (hub/forms.py). A missing or non-decimal hours value is
none. -/
structure SubmitInput where
  event : Option EventId
  department : Option DeptId
  date : Time
  hours : Option Int
  description : String
  deriving DecidableEq, Repr

/-- Validation of the hours field: DecimalField(max_digits=5,
decimal_places=2) accepts any decimal with at most five digits, that is
any value up to 999.99 in magnitude. No positivity check exists on the
model field or the form. -/
def hours_ok (v : Int) : Bool :=
  decide (-99999 ≤ v ∧ v ≤ 99999)

/-- Validation of the event choice field: ContributionForm.__init__
(hub/forms.py lines 56-68) restricts the queryset to SCHEDULED events,
further restricted for non-coordinators to events with a CONFIRMED signup
by the submitting user. A choice outside the queryset is invalid. -/
def event_choice_ok (st : HubState) (user : UserId) (isCoord : Bool) :
    Option EventId → Bool
  | none => true
  | some eid =>
    match st.events.find? (fun ev => ev.id = eid) with
    | none => false
    | some ev =>
      decide (ev.status = EventStatus.SCHEDULED) && (isCoord || has_confirmed_row st user eid)

/-- form.is_valid() followed by form.cleaned_data for ContributionForm:
department is required and must be an existing department, hours must be
a well-formed decimal, and the event choice must lie in the restricted
queryset. Returns the cleaned department and hours on success. -/
def form_cleaned_data (st : HubState) (user : UserId) (isCoord : Bool)
    (inp : SubmitInput) : Option (DeptId × Int) :=
  match inp.department, inp.hours with
  | some d, some v =>
    if st.departments.contains d ∧ hours_ok v ∧ event_choice_ok st user isCoord inp.event then
      some (d, v)
    else none
  | _, _ => none

/-- contribution.save() at the end of contribution_create: a fresh row in
status PENDING with the model defaults for the approval metadata. -/
def add_contrib (st : HubState) (user : UserId) (eo : Option EventId) (d : DeptId)
    (date : Time) (v : Int) (descr : String) : HubState :=
  { st with
      contribs := { id := st.nextContribId, user := user, event := eo, department := d,
                    date := date, hours := v, description := descr,
                    status := ContribStatus.PENDING, approved_by := none,
                    approved_at := none, rejection_reason := "" } :: st.contribs,
      nextContribId := st.nextContribId + 1 }

/-- The contribution_create view (hub/views.py lines 355-411), POST
branch: form validation, then the event-related checks of the view body,
then the save. The two add_error branches are kept exactly as in the
source even though the form validation in front of them already refuses
the inputs that would reach them. -/
def contribution_create (st : HubState) (user : UserId) (inp : SubmitInput) :
    Except HubError HubState :=
  match findProfile st user with
  | none => .error .notFound
  | some p =>
    match form_cleaned_data st user p.is_coordinator inp with
    | none => .error .validationError
    | some (d, v) =>
      match inp.event with
      | some eid =>
        match st.events.find? (fun ev => ev.id = eid) with
        | none => .error .notFound
        | some ev =>
          if ev.status ≠ EventStatus.SCHEDULED then
            .error .eventNotScheduled
          else if ¬ p.is_coordinator ∧ ¬ has_confirmed_row st user eid then
            .error .notSignedUp
          else
            .ok (add_contrib st user (some eid) d inp.date v inp.description)
      | none => .ok (add_contrib st user none d inp.date v inp.description)

/-- The approval_approve view (hub/views.py lines 669-685): behind the
coordinator_required decorator, the lookup is scoped to status PENDING
(404 otherwise), then the row is saved with status APPROVED and the
approval metadata set to the acting coordinator and the current time. -/
def approval_approve (st : HubState) (actor : UserId) (pk : ContribId) (now : Time) :
    Except HubError HubState :=
  if ¬ coordinator_required st actor then .error .permissionDenied
  else
    match st.contribs.find? (fun c => c.id = pk ∧ c.status = ContribStatus.PENDING) with
    | none => .error .notFound
    | some c0 =>
      .ok { st with
              contribs := st.contribs.map (fun c =>
                if c.id = pk then
                  { c0 with status := ContribStatus.APPROVED,
                            approved_by := some actor, approved_at := some now }
                else c) }

/-- The approval_reject view (hub/views.py lines 688-711), POST branch:
same PENDING-scoped lookup, saving status REJECTED, the approval metadata
and the stripped rejection reason. -/
def approval_reject (st : HubState) (actor : UserId) (pk : ContribId)
    (reason : String) (now : Time) : Except HubError HubState :=
  if ¬ coordinator_required st actor then .error .permissionDenied
  else
    match st.contribs.find? (fun c => c.id = pk ∧ c.status = ContribStatus.PENDING) with
    | none => .error .notFound
    | some c0 =>
      .ok { st with
              contribs := st.contribs.map (fun c =>
                if c.id = pk then
                  { c0 with status := ContribStatus.REJECTED,
                            approved_by := some actor, approved_at := some now,
                            rejection_reason := reason.trim }
                else c) }

/-- Parsing of the posted status string against Contribution.STATUS_CHOICES,
the membership test new_status in dict(Contribution.STATUS_CHOICES). -/
def parse_status (s : String) : Option ContribStatus :=
  if s = "PENDING" then some ContribStatus.PENDING
  else if s = "APPROVED" then some ContribStatus.APPROVED
  else if s = "REJECTED" then some ContribStatus.REJECTED
  else none

/-- The metadata update of log_update_status (hub/views.py lines 768-780):
status takes the requested value; a move from PENDING into APPROVED or
REJECTED records the actor and time; a move to PENDING clears both; any
other move touches nothing besides status. The rejection_reason field is
never touched. -/
def set_status_fields (c : Contribution) (ns : ContribStatus) (actor : UserId)
    (now : Time) : Contribution :=
  if (ns = ContribStatus.APPROVED ∨ ns = ContribStatus.REJECTED) ∧ c.status = ContribStatus.PENDING then
    { c with status := ns, approved_by := some actor, approved_at := some now }
  else if ns = ContribStatus.PENDING then
    { c with status := ns, approved_by := none, approved_at := none }
  else
    { c with status := ns }

/-- The log_update_status view (hub/views.py lines 752-784), POST branch:
behind the coordinator_required decorator, an unscoped lookup (404 when
the row is absent), a silently ignored invalid status string, and
otherwise the save of the updated instance. -/
def log_update_status (st : HubState) (actor : UserId) (pk : ContribId)
    (new_status : String) (now : Time) : Except HubError HubState :=
  if ¬ coordinator_required st actor then .error .permissionDenied
  else
    match st.contribs.find? (fun c => c.id = pk) with
    | none => .error .notFound
    | some c0 =>
      match parse_status new_status with
      | none => .ok st
      | some ns =>
        .ok { st with
                contribs := st.contribs.map (fun c =>
                  if c.id = pk then set_status_fields c0 ns actor now else c) }

/-- The POST branch of coordinator_management (hub/views.py lines
867-891): behind the coordinator_required decorator; a missing or
unrecognised action does nothing; the target user is looked up (404 when
absent; users are represented by their profiles, which exist for every
user); a coordinator demoting themselves is refused; otherwise
is_coordinator is set from the action and, when promoting and the actor
has a department, the target's department is overwritten with it. -/
def coordinator_management (st : HubState) (actor : UserId)
    (user_id : Option UserId) (action : String) : Except HubError HubState :=
  if ¬ coordinator_required st actor then .error .permissionDenied
  else
    match findProfile st actor with
    | none => .error .permissionDenied
    | some ap =>
      match user_id with
      | none => .ok st
      | some uid =>
        if action = "promote" ∨ action = "demote" then
          match findProfile st uid with
          | none => .error .notFound
          | some tp =>
            if action = "demote" ∧ uid = actor then
              .error .permissionDenied
            else
              .ok { st with
                      profiles := st.profiles.map (fun p =>
                        if p.user = uid then
                          { tp with
                              is_coordinator := action = "promote",
                              department :=
                                if action = "promote" ∧ ap.department.isSome then
                                  ap.department
                                else tp.department }
                        else p) }
        else .ok st

/-- One request against the system: the operations modelled from
hub/views.py that mutate the database. -/
inductive HubOp
  | signup (user : UserId) (event : EventId)
  | cancel (user : UserId) (pk : SignupId)
  | submit (user : UserId) (inp : SubmitInput)
  | approve (actor : UserId) (pk : ContribId) (now : Time)
  | reject (actor : UserId) (pk : ContribId) (reason : String) (now : Time)
  | setStatus (actor : UserId) (pk : ContribId) (new_status : String) (now : Time)
  | manage (actor : UserId) (target : Option UserId) (action : String)
  deriving DecidableEq, Repr

/-- Executing one request: a failed request leaves the database
unchanged. -/
def applyOp (st : HubState) (op : HubOp) : HubState :=
  match op with
  | .signup u e =>
    match event_signup st u e with
    | .ok st2 => st2
    | .error _ => st
  | .cancel u pk =>
    match signup_cancel st u pk with
    | .ok st2 => st2
    | .error _ => st
  | .submit u inp =>
    match contribution_create st u inp with
    | .ok st2 => st2
    | .error _ => st
  | .approve a pk now =>
    match approval_approve st a pk now with
    | .ok st2 => st2
    | .error _ => st
  | .reject a pk reason now =>
    match approval_reject st a pk reason now with
    | .ok st2 => st2
    | .error _ => st
  | .setStatus a pk ns now =>
    match log_update_status st a pk ns now with
    | .ok st2 => st2
    | .error _ => st
  | .manage a t act =>
    match coordinator_management st a t act with
    | .ok st2 => st2
    | .error _ => st

/-- A sequence of requests executed sequentially. -/
def runOps (st : HubState) (ops : List HubOp) : HubState :=
  ops.foldl applyOp st


/-! Elimination lemmas: what a successful run of each handler tells us. -/

/-- A successful event_signup found the event, passed all three guards and
prepended exactly one fresh CONFIRMED row. -/
theorem event_signup_ok_elim {st : HubState} {u : UserId} {pk : EventId} {r : HubState}
    (h : event_signup st u pk = .ok r) :
    ∃ ev, st.events.find? (fun ev => ev.id = pk) = some ev ∧
      has_confirmed_row st u ev.id = false ∧
      ¬ (ev.capacity ≠ 0 ∧ ev.capacity ≤ confirmedCount st.signups ev.id) ∧
      has_any_row st u ev.id = false ∧
      r = { st with
              signups := { id := st.nextSignupId, user := u, event := ev.id,
                           status := SignupStatus.CONFIRMED } :: st.signups,
              nextSignupId := st.nextSignupId + 1 } := by
  unfold event_signup at h
  split at h
  · simp at h
  · next ev heq =>
    split at h
    · simp at h
    · split at h
      · simp at h
      · split at h
        · simp at h
        · next h1 h2 h3 =>
          exact ⟨ev, heq, by simpa using h1, h2, by simpa using h3, (Except.ok.inj h).symm⟩

/-- A successful signup_cancel found a CONFIRMED row owned by the
requester and rewrote the rows carrying its primary key to the CANCELLED
copy of the fetched row, touching nothing else in the state. -/
theorem signup_cancel_ok_elim {st : HubState} {u : UserId} {pk : SignupId} {r : HubState}
    (h : signup_cancel st u pk = .ok r) :
    ∃ s0, st.signups.find? (fun s => s.id = pk ∧ s.user = u ∧ s.status = SignupStatus.CONFIRMED) = some s0 ∧
      r = { st with
              signups := st.signups.map (fun s =>
                if s.id = pk then { s0 with status := SignupStatus.CANCELLED } else s) } := by
  unfold signup_cancel at h
  split at h
  · simp at h
  · next s0 heq => exact ⟨s0, heq, (Except.ok.inj h).symm⟩

/-- A successful contribution_create passed form validation and appended
exactly one fresh PENDING row built from the cleaned data. -/
theorem contribution_create_ok_elim {st : HubState} {u : UserId} {inp : SubmitInput}
    {r : HubState} (h : contribution_create st u inp = .ok r) :
    ∃ p d v, findProfile st u = some p ∧
      form_cleaned_data st u p.is_coordinator inp = some (d, v) ∧
      r = add_contrib st u inp.event d inp.date v inp.description := by
  unfold contribution_create at h
  split at h
  · simp at h
  · next p hp =>
    split at h
    · simp at h
    · next d v hclean =>
      split at h
      · next eid heid =>
        split at h
        · simp at h
        · split at h
          · simp at h
          · split at h
            · simp at h
            · refine ⟨p, d, v, hp, hclean, ?_⟩
              rw [heid]
              exact (Except.ok.inj h).symm
      · next heid =>
        refine ⟨p, d, v, hp, hclean, ?_⟩
        rw [heid]
        exact (Except.ok.inj h).symm

/-- A successful approval_approve was run by a coordinator on a PENDING
row and rewrote the rows carrying its primary key to the APPROVED copy of
the fetched row. -/
theorem approval_approve_ok_elim {st : HubState} {a : UserId} {pk : ContribId}
    {now : Time} {r : HubState} (h : approval_approve st a pk now = .ok r) :
    coordinator_required st a = true ∧
    ∃ c0, st.contribs.find? (fun c => c.id = pk ∧ c.status = ContribStatus.PENDING) = some c0 ∧
      r = { st with
              contribs := st.contribs.map (fun c =>
                if c.id = pk then
                  { c0 with status := ContribStatus.APPROVED,
                            approved_by := some a, approved_at := some now }
                else c) } := by
  unfold approval_approve at h
  split at h
  · simp at h
  · next hc =>
    split at h
    · simp at h
    · next c0 heq =>
      exact ⟨by simpa using hc, c0, heq, (Except.ok.inj h).symm⟩

/-- A successful approval_reject was run by a coordinator on a PENDING
row and rewrote the rows carrying its primary key to the REJECTED copy of
the fetched row. -/
theorem approval_reject_ok_elim {st : HubState} {a : UserId} {pk : ContribId}
    {reason : String} {now : Time} {r : HubState}
    (h : approval_reject st a pk reason now = .ok r) :
    coordinator_required st a = true ∧
    ∃ c0, st.contribs.find? (fun c => c.id = pk ∧ c.status = ContribStatus.PENDING) = some c0 ∧
      r = { st with
              contribs := st.contribs.map (fun c =>
                if c.id = pk then
                  { c0 with status := ContribStatus.REJECTED,
                            approved_by := some a, approved_at := some now,
                            rejection_reason := reason.trim }
                else c) } := by
  unfold approval_reject at h
  split at h
  · simp at h
  · next hc =>
    split at h
    · simp at h
    · next c0 heq =>
      exact ⟨by simpa using hc, c0, heq, (Except.ok.inj h).symm⟩

/-- A successful log_update_status either changed nothing (invalid posted
status string) or rewrote the rows carrying the fetched row's primary key
to its set_status_fields update. -/
theorem log_update_status_ok_elim {st : HubState} {a : UserId} {pk : ContribId}
    {ns : String} {now : Time} {r : HubState}
    (h : log_update_status st a pk ns now = .ok r) :
    r = st ∨
    ∃ c0 s, st.contribs.find? (fun c => c.id = pk) = some c0 ∧ parse_status ns = some s ∧
      r = { st with
              contribs := st.contribs.map (fun c =>
                if c.id = pk then set_status_fields c0 s a now else c) } := by
  unfold log_update_status at h
  split at h
  · simp at h
  · split at h
    · simp at h
    · next c0 heq =>
      split at h
      · exact Or.inl (Except.ok.inj h).symm
      · next s hs => exact Or.inr ⟨c0, s, heq, hs, (Except.ok.inj h).symm⟩

/-- A successful coordinator_management POST either changed nothing or
rewrote the rows carrying the target's user key to the promoted or
demoted copy of the target's profile. -/
theorem coordinator_management_ok_elim {st : HubState} {a : UserId}
    {t : Option UserId} {act : String} {r : HubState}
    (h : coordinator_management st a t act = .ok r) :
    r = st ∨
    ∃ ap uid tp, findProfile st a = some ap ∧ t = some uid ∧ findProfile st uid = some tp ∧
      (act = "promote" ∨ act = "demote") ∧
      r = { st with
              profiles := st.profiles.map (fun p =>
                if p.user = uid then
                  { tp with
                      is_coordinator := act = "promote",
                      department :=
                        if act = "promote" ∧ ap.department.isSome then ap.department
                        else tp.department }
                else p) } := by
  unfold coordinator_management at h
  split at h
  · simp at h
  · split at h
    · simp at h
    · next ap hap =>
      split at h
      · exact Or.inl (Except.ok.inj h).symm
      · next uid =>
        split at h
        · next hact =>
          split at h
          · simp at h
          · next tp htp =>
            split at h
            · simp at h
            · exact Or.inr ⟨ap, uid, tp, hap, rfl, htp, hact, (Except.ok.inj h).symm⟩
        · exact Or.inl (Except.ok.inj h).symm

/-! Counting helper lemmas. -/

/-- Prepending a row adds one to the confirmed count exactly when the row
is a CONFIRMED row for the event. -/
theorem confirmedCount_cons (s : Signup) (l : List Signup) (e : EventId) :
    confirmedCount (s :: l) e =
      confirmedCount l e + (if s.event = e ∧ s.status = SignupStatus.CONFIRMED then 1 else 0) := by
  simp [confirmedCount, List.countP_cons]

/-- The rewrite performed by signup_cancel never increases the confirmed
count of any event: the only rows it changes become CANCELLED. -/
theorem confirmedCount_map_cancel_le (l : List Signup) (pk : SignupId) (s0 : Signup)
    (e : EventId) :
    confirmedCount (l.map (fun s =>
        if s.id = pk then { s0 with status := SignupStatus.CANCELLED } else s)) e ≤
      confirmedCount l e := by
  unfold confirmedCount
  rw [List.countP_map]
  apply List.countP_mono_left
  intro s _ hs
  by_cases hid : s.id = pk
  · simp [Function.comp, hid] at hs
  · simpa [Function.comp, hid] using hs

/-! The capacity invariant (claim area: event capacity tracker). -/

/-- Every event with a nonzero capacity has at most capacity many
CONFIRMED signup rows. -/
def capInv (st : HubState) : Prop :=
  ∀ e ev, st.events.find? (fun x => x.id = e) = some ev →
    0 < ev.capacity → confirmedCount st.signups e ≤ ev.capacity

/-- Executable check implying the capacity invariant. -/
def capInvB (st : HubState) : Bool :=
  st.events.all (fun ev => ev.capacity = 0 ∨ confirmedCount st.signups ev.id ≤ ev.capacity)

theorem capInv_of_capInvB (st : HubState) (h : capInvB st = true) : capInv st := by
  intro e ev hf hcap
  have hmem : ev ∈ st.events := List.mem_of_find?_eq_some hf
  have hid : ev.id = e := by simpa using List.find?_some hf
  have hall := (List.all_eq_true.mp h) ev hmem
  rw [hid] at hall
  simp at hall
  rcases hall with h0 | hle
  · omega
  · exact hle

/-- States agreeing on events and signups share the capacity invariant. -/
theorem capInv_congr {st r : HubState} (he : r.events = st.events)
    (hs : r.signups = st.signups) (h : capInv st) : capInv r := by
  intro e ev hf hcap
  rw [he] at hf
  rw [hs]
  exact h e ev hf hcap

/-- A successful signup preserves the capacity invariant: the insert only
happens below capacity. -/
theorem capInv_event_signup {st : HubState} {u : UserId} {pk : EventId} {r : HubState}
    (hinv : capInv st) (h : event_signup st u pk = .ok r) : capInv r := by
  obtain ⟨ev', hfind, _, hfull, _, hr⟩ := event_signup_ok_elim h
  have hpk : ev'.id = pk := by simpa using List.find?_some hfind
  subst hr
  intro e ev hf hcap
  dsimp only at hf ⊢
  rw [confirmedCount_cons]
  by_cases he : ev'.id = e
  · subst he
    rw [hpk] at hf
    rw [hfind] at hf
    have hev : ev = ev' := by exact (Option.some.inj hf).symm
    subst hev
    have hlt : confirmedCount st.signups ev.id < ev.capacity := by
      rcases Decidable.not_and_iff_or_not.mp hfull with h1 | h2
      · omega
      · omega
    rw [if_pos ⟨rfl, rfl⟩]
    omega
  · rw [if_neg (fun hc => he hc.1)]
    simpa using hinv e ev hf hcap


/-- Cancelling preserves the capacity invariant: counts only go down. -/
theorem capInv_signup_cancel {st : HubState} {u : UserId} {pk : SignupId} {r : HubState}
    (hinv : capInv st) (h : signup_cancel st u pk = .ok r) : capInv r := by
  obtain ⟨s0, _, hr⟩ := signup_cancel_ok_elim h
  subst hr
  intro e ev hf hcap
  dsimp only at hf ⊢
  exact le_trans (confirmedCount_map_cancel_le st.signups pk s0 e) (hinv e ev hf hcap)

/-- Every modelled request preserves the capacity invariant. -/
theorem capInv_applyOp (st : HubState) (op : HubOp) (hinv : capInv st) :
    capInv (applyOp st op) := by
  cases op with
  | signup u e =>
    simp only [applyOp]
    split
    · next st2 hok => exact capInv_event_signup hinv hok
    · exact hinv
  | cancel u pk =>
    simp only [applyOp]
    split
    · next st2 hok => exact capInv_signup_cancel hinv hok
    · exact hinv
  | submit u inp =>
    simp only [applyOp]
    split
    · next st2 hok =>
      obtain ⟨p, d, v, _, _, hr⟩ := contribution_create_ok_elim hok
      subst hr
      exact capInv_congr rfl rfl hinv
    · exact hinv
  | approve a pk now =>
    simp only [applyOp]
    split
    · next st2 hok =>
      obtain ⟨_, c0, _, hr⟩ := approval_approve_ok_elim hok
      subst hr
      exact capInv_congr rfl rfl hinv
    · exact hinv
  | reject a pk reason now =>
    simp only [applyOp]
    split
    · next st2 hok =>
      obtain ⟨_, c0, _, hr⟩ := approval_reject_ok_elim hok
      subst hr
      exact capInv_congr rfl rfl hinv
    · exact hinv
  | setStatus a pk ns now =>
    simp only [applyOp]
    split
    · next st2 hok =>
      rcases log_update_status_ok_elim hok with hr | ⟨c0, s, _, _, hr⟩ <;> subst hr
      · exact hinv
      · exact capInv_congr rfl rfl hinv
    · exact hinv
  | manage a t act =>
    simp only [applyOp]
    split
    · next st2 hok =>
      rcases coordinator_management_ok_elim hok with hr | ⟨ap, uid, tp, _, _, _, _, hr⟩ <;> subst hr
      · exact hinv
      · exact capInv_congr rfl rfl hinv
    · exact hinv

/-- Any sequence of modelled requests preserves the capacity invariant. -/
theorem capInv_runOps (st : HubState) (ops : List HubOp) (hinv : capInv st) :
    capInv (runOps st ops) := by
  induction ops generalizing st with
  | nil => exact hinv
  | cons op ops ih => exact ih (applyOp st op) (capInv_applyOp st op hinv)

/-! The approval-metadata invariant (contribution state machine). -/

/-- A contribution row is PENDING exactly when both approval metadata
fields are null. -/
def pendingMetaOk (c : Contribution) : Prop :=
  c.status = ContribStatus.PENDING ↔ (c.approved_by = none ∧ c.approved_at = none)

/-- Every contribution row in the state satisfies pendingMetaOk. -/
def contribInv (st : HubState) : Prop :=
  ∀ c ∈ st.contribs, pendingMetaOk c

/-- Executable check equivalent to contribInv on concrete states. -/
def contribInvB (st : HubState) : Bool :=
  st.contribs.all (fun c =>
    decide (c.status = ContribStatus.PENDING) ==
      (decide (c.approved_by = none) && decide (c.approved_at = none)))

theorem contribInv_of_contribInvB (st : HubState) (h : contribInvB st = true) :
    contribInv st := by
  intro c hc
  have hall := (List.all_eq_true.mp h) c hc
  rw [beq_iff_eq] at hall
  constructor
  · intro hp
    rw [decide_eq_true hp] at hall
    have hand := hall.symm
    rw [Bool.and_eq_true] at hand
    exact ⟨of_decide_eq_true hand.1, of_decide_eq_true hand.2⟩
  · intro ⟨h1, h2⟩
    have hand : (decide (c.approved_by = none) && decide (c.approved_at = none)) = true := by
      rw [decide_eq_true h1, decide_eq_true h2]
      rfl
    rw [hand] at hall
    exact of_decide_eq_true hall

theorem contribInv_congr {st r : HubState} (hc : r.contribs = st.contribs)
    (h : contribInv st) : contribInv r := by
  intro c hmem
  rw [hc] at hmem
  exact h c hmem

/-- The row written by set_status_fields satisfies the invariant whenever
the row it started from does. -/
theorem pendingMetaOk_set_status_fields {c : Contribution} (hc : pendingMetaOk c)
    (ns : ContribStatus) (actor : UserId) (now : Time) :
    pendingMetaOk (set_status_fields c ns actor now) := by
  unfold set_status_fields
  split
  · next h1 =>
    rcases h1 with ⟨hns, _⟩
    constructor
    · intro hp
      simp at hp
      rcases hns with h | h <;> simp [h] at hp
    · intro ⟨h1', _⟩
      simp at h1'
  · next h1 =>
    split
    · next h2 =>
      subst h2
      exact ⟨fun _ => ⟨rfl, rfl⟩, fun _ => rfl⟩
    · next h2 =>
      -- ns is APPROVED or REJECTED and the old status was not PENDING
      have hns : ns = ContribStatus.APPROVED ∨ ns = ContribStatus.REJECTED := by
        cases ns
        · exact absurd rfl h2
        · exact Or.inl rfl
        · exact Or.inr rfl
      have hold : ¬ c.status = ContribStatus.PENDING := fun hp => h1 ⟨hns, hp⟩
      constructor
      · intro hp
        simp at hp
        exact absurd hp h2
      · intro ⟨h1', h2'⟩
        simp at h1' h2'
        exact absurd (hc.mpr ⟨h1', h2'⟩) hold

/-- Every modelled request preserves the approval-metadata invariant. -/
theorem contribInv_applyOp (st : HubState) (op : HubOp) (hinv : contribInv st) :
    contribInv (applyOp st op) := by
  cases op with
  | signup u e =>
    simp only [applyOp]
    split
    · next st2 hok =>
      obtain ⟨ev, _, _, _, _, hr⟩ := event_signup_ok_elim hok
      subst hr
      exact contribInv_congr rfl hinv
    · exact hinv
  | cancel u pk =>
    simp only [applyOp]
    split
    · next st2 hok =>
      obtain ⟨s0, _, hr⟩ := signup_cancel_ok_elim hok
      subst hr
      exact contribInv_congr rfl hinv
    · exact hinv
  | submit u inp =>
    simp only [applyOp]
    split
    · next st2 hok =>
      obtain ⟨p, d, v, _, _, hr⟩ := contribution_create_ok_elim hok
      subst hr
      intro c hmem
      simp only [add_contrib, List.mem_cons] at hmem
      rcases hmem with rfl | hmem
      · exact ⟨fun _ => ⟨rfl, rfl⟩, fun _ => rfl⟩
      · exact hinv c hmem
    · exact hinv
  | approve a pk now =>
    simp only [applyOp]
    split
    · next st2 hok =>
      obtain ⟨_, c0, _, hr⟩ := approval_approve_ok_elim hok
      subst hr
      intro c hmem
      simp only [List.mem_map] at hmem
      obtain ⟨c1, hc1, heq⟩ := hmem
      by_cases hid : c1.id = pk
      · rw [if_pos hid] at heq
        rw [← heq]
        exact ⟨fun hp => by simp at hp, fun ⟨h1, _⟩ => by simp at h1⟩
      · rw [if_neg hid] at heq
        rw [← heq]
        exact hinv c1 hc1
    · exact hinv
  | reject a pk reason now =>
    simp only [applyOp]
    split
    · next st2 hok =>
      obtain ⟨_, c0, _, hr⟩ := approval_reject_ok_elim hok
      subst hr
      intro c hmem
      simp only [List.mem_map] at hmem
      obtain ⟨c1, hc1, heq⟩ := hmem
      by_cases hid : c1.id = pk
      · rw [if_pos hid] at heq
        rw [← heq]
        exact ⟨fun hp => by simp at hp, fun ⟨h1, _⟩ => by simp at h1⟩
      · rw [if_neg hid] at heq
        rw [← heq]
        exact hinv c1 hc1
    · exact hinv
  | setStatus a pk ns now =>
    simp only [applyOp]
    split
    · next st2 hok =>
      rcases log_update_status_ok_elim hok with hr | ⟨c0, s, hfind, _, hr⟩
      · subst hr; exact hinv
      · subst hr
        have hc0 : pendingMetaOk c0 := hinv c0 (List.mem_of_find?_eq_some hfind)
        intro c hmem
        simp only [List.mem_map] at hmem
        obtain ⟨c1, hc1, heq⟩ := hmem
        by_cases hid : c1.id = pk
        · rw [if_pos hid] at heq
          rw [← heq]
          exact pendingMetaOk_set_status_fields hc0 s a now
        · rw [if_neg hid] at heq
          rw [← heq]
          exact hinv c1 hc1
    · exact hinv
  | manage a t act =>
    simp only [applyOp]
    split
    · next st2 hok =>
      rcases coordinator_management_ok_elim hok with hr | ⟨ap, uid, tp, _, _, _, _, hr⟩ <;> subst hr
      · exact hinv
      · exact contribInv_congr rfl hinv
    · exact hinv

/-- Any sequence of modelled requests preserves the approval-metadata
invariant. -/
theorem contribInv_runOps (st : HubState) (ops : List HubOp) (hinv : contribInv st) :
    contribInv (runOps st ops) := by
  induction ops generalizing st with
  | nil => exact hinv
  | cons op ops ih => exact ih (applyOp st op) (contribInv_applyOp st op hinv)

/-! Primary-key uniqueness of signup rows along traces. -/

/-- Well-formedness of the signup table: every row's primary key is below
the auto-increment counter and keys are pairwise distinct, exactly as a
database primary key behaves. -/
def sigInv (st : HubState) : Prop :=
  (∀ s ∈ st.signups, s.id < st.nextSignupId) ∧
  st.signups.Pairwise (fun a b => a.id ≠ b.id)

/-- Executable check implying the signup table well-formedness. -/
def sigInvB (st : HubState) : Bool :=
  st.signups.all (fun s => s.id < st.nextSignupId) &&
  decide (st.signups.Pairwise (fun a b => a.id ≠ b.id))

theorem sigInv_of_sigInvB (st : HubState) (h : sigInvB st = true) : sigInv st := by
  rw [sigInvB, Bool.and_eq_true] at h
  exact ⟨fun s hs => of_decide_eq_true ((List.all_eq_true.mp h.1) s hs),
         of_decide_eq_true h.2⟩

theorem sigInv_congr {st r : HubState} (hs : r.signups = st.signups)
    (hn : r.nextSignupId = st.nextSignupId) (h : sigInv st) : sigInv r := by
  constructor
  · intro s hmem
    rw [hs] at hmem
    rw [hn]
    exact h.1 s hmem
  · rw [hs]
    exact h.2

/-- In a list with pairwise distinct primary keys, two members with the
same key are the same row. -/
theorem pairwise_id_inj {l : List Signup}
    (hp : l.Pairwise (fun a b => a.id ≠ b.id)) :
    ∀ a ∈ l, ∀ b ∈ l, a.id = b.id → a = b := by
  induction l with
  | nil => intro a ha; cases ha
  | cons x xs ih =>
    intro a ha b hb hid
    have hx := (List.pairwise_cons.mp hp).1
    have hxs := (List.pairwise_cons.mp hp).2
    rcases List.mem_cons.mp ha with rfl | ha2 <;> rcases List.mem_cons.mp hb with rfl | hb2
    · rfl
    · exact absurd hid (hx b hb2)
    · exact absurd hid.symm (hx a ha2)
    · exact ih hxs a ha2 b hb2 hid

/-- Every modelled request preserves signup-table well-formedness. -/
theorem sigInv_applyOp (st : HubState) (op : HubOp) (hinv : sigInv st) :
    sigInv (applyOp st op) := by
  cases op with
  | signup u e =>
    simp only [applyOp]
    split
    · next st2 hok =>
      obtain ⟨ev, _, _, _, _, hr⟩ := event_signup_ok_elim hok
      subst hr
      constructor
      · intro s hmem
        dsimp only at hmem ⊢
        rcases List.mem_cons.mp hmem with rfl | hmem2
        · exact Nat.lt_succ_self st.nextSignupId
        · exact Nat.lt_succ_of_lt (hinv.1 s hmem2)
      · dsimp only
        rw [List.pairwise_cons]
        refine ⟨fun b hb hEq => ?_, hinv.2⟩
        have hb2 := hinv.1 b hb
        have hEq2 : st.nextSignupId = b.id := hEq
        exact absurd hEq2 (Nat.ne_of_gt hb2)
    · exact hinv
  | cancel u pk =>
    simp only [applyOp]
    split
    · next st2 hok =>
      obtain ⟨s0, hfind, hr⟩ := signup_cancel_ok_elim hok
      subst hr
      have hs0 : s0.id = pk := by
        have := List.find?_some hfind
        simp at this
        exact this.1
      have hid : ∀ s : Signup,
          ((fun s => if s.id = pk then { s0 with status := SignupStatus.CANCELLED } else s) s).id = s.id := by
        intro s
        by_cases h : s.id = pk
        · simp [h, hs0]
        · simp [h]
      constructor
      · intro s hmem
        dsimp only at hmem ⊢
        obtain ⟨a, ha, rfl⟩ := List.mem_map.mp hmem
        rw [hid a]
        exact hinv.1 a ha
      · dsimp only
        rw [List.pairwise_map]
        exact hinv.2.imp (fun {a b} hab => by rw [hid a, hid b]; exact hab)
    · exact hinv
  | submit u inp =>
    simp only [applyOp]
    split
    · next st2 hok =>
      obtain ⟨p, d, v, _, _, hr⟩ := contribution_create_ok_elim hok
      subst hr
      exact sigInv_congr rfl rfl hinv
    · exact hinv
  | approve a pk now =>
    simp only [applyOp]
    split
    · next st2 hok =>
      obtain ⟨_, c0, _, hr⟩ := approval_approve_ok_elim hok
      subst hr
      exact sigInv_congr rfl rfl hinv
    · exact hinv
  | reject a pk reason now =>
    simp only [applyOp]
    split
    · next st2 hok =>
      obtain ⟨_, c0, _, hr⟩ := approval_reject_ok_elim hok
      subst hr
      exact sigInv_congr rfl rfl hinv
    · exact hinv
  | setStatus a pk ns now =>
    simp only [applyOp]
    split
    · next st2 hok =>
      rcases log_update_status_ok_elim hok with hr | ⟨c0, s, _, _, hr⟩ <;> subst hr
      · exact hinv
      · exact sigInv_congr rfl rfl hinv
    · exact hinv
  | manage a t act =>
    simp only [applyOp]
    split
    · next st2 hok =>
      rcases coordinator_management_ok_elim hok with hr | ⟨ap, uid, tp, _, _, _, _, hr⟩ <;> subst hr
      · exact hinv
      · exact sigInv_congr rfl rfl hinv
    · exact hinv

/-- A signup row for a pair, once present, survives every modelled
request: rows are only ever added or status-rewritten in place, never
deleted. -/
theorem has_any_row_applyOp (st : HubState) (op : HubOp) (u : UserId) (e : EventId)
    (hinv : sigInv st) (h : has_any_row st u e = true) :
    has_any_row (applyOp st op) u e = true := by
  obtain ⟨a, ha, hpa⟩ := List.any_eq_true.mp h
  cases op with
  | signup u2 e2 =>
    simp only [applyOp]
    split
    · next st2 hok =>
      obtain ⟨ev, _, _, _, _, hr⟩ := event_signup_ok_elim hok
      subst hr
      apply List.any_eq_true.mpr
      exact ⟨a, List.mem_cons_of_mem _ ha, hpa⟩
    · exact h
  | cancel u2 pk =>
    simp only [applyOp]
    split
    · next st2 hok =>
      obtain ⟨s0, hfind, hr⟩ := signup_cancel_ok_elim hok
      subst hr
      have hs0 : s0.id = pk := by
        have := List.find?_some hfind
        simp at this
        exact this.1
      have hs0mem : s0 ∈ st.signups := List.mem_of_find?_eq_some hfind
      apply List.any_eq_true.mpr
      by_cases hid : a.id = pk
      · have haeq : a = s0 := pairwise_id_inj hinv.2 a ha s0 hs0mem (by rw [hid, hs0])
        have hpa2 : decide (s0.user = u ∧ s0.event = e) = true := by
          rw [← haeq]
          exact hpa
        refine ⟨{ s0 with status := SignupStatus.CANCELLED },
                List.mem_map.mpr ⟨a, ha, ?_⟩, ?_⟩
        · dsimp only
          rw [if_pos hid]
        · simpa using hpa2
      · refine ⟨a, List.mem_map.mpr ⟨a, ha, ?_⟩, hpa⟩
        dsimp only
        rw [if_neg hid]
    · exact h
  | submit u2 inp =>
    simp only [applyOp]
    split
    · next st2 hok =>
      obtain ⟨p, d, v, _, _, hr⟩ := contribution_create_ok_elim hok
      subst hr
      exact h
    · exact h
  | approve a2 pk now =>
    simp only [applyOp]
    split
    · next st2 hok =>
      obtain ⟨_, c0, _, hr⟩ := approval_approve_ok_elim hok
      subst hr
      exact h
    · exact h
  | reject a2 pk reason now =>
    simp only [applyOp]
    split
    · next st2 hok =>
      obtain ⟨_, c0, _, hr⟩ := approval_reject_ok_elim hok
      subst hr
      exact h
    · exact h
  | setStatus a2 pk ns now =>
    simp only [applyOp]
    split
    · next st2 hok =>
      rcases log_update_status_ok_elim hok with hr | ⟨c0, s, _, _, hr⟩ <;> subst hr
      · exact h
      · exact h
    · exact h
  | manage a2 t act =>
    simp only [applyOp]
    split
    · next st2 hok =>
      rcases coordinator_management_ok_elim hok with hr | ⟨ap, uid, tp, _, _, _, _, hr⟩ <;> subst hr
      · exact h
      · exact h
    · exact h

/-- A signup row for a pair survives any sequence of modelled requests. -/
theorem has_any_row_runOps (st : HubState) (ops : List HubOp) (u : UserId) (e : EventId)
    (hinv : sigInv st) (h : has_any_row st u e = true) :
    has_any_row (runOps st ops) u e = true := by
  induction ops generalizing st with
  | nil => exact h
  | cons op ops ih =>
    exact ih (applyOp st op) (sigInv_applyOp st op hinv) (has_any_row_applyOp st op u e hinv h)

/-- event_signup can never succeed while any row for the pair exists: the
success branch sits behind the uniqueness guard. -/
theorem event_signup_no_ok_of_any_row {st : HubState} {u : UserId} {e : EventId}
    (h : has_any_row st u e = true) :
    ∀ r, event_signup st u e ≠ .ok r := by
  intro r hok
  obtain ⟨ev, hfind, _, _, hany, _⟩ := event_signup_ok_elim hok
  have hid : ev.id = e := by simpa using List.find?_some hfind
  rw [hid] at hany
  rw [h] at hany
  cases hany

/-! Concrete states used to exercise the theorems below. -/

/-- A SCHEDULED event with capacity 2 and no special data. -/
def demoEvent : Event :=
  { id := 0, title := "Beach Cleanup", description := "", department := none,
    date := 10, location := "Shore", capacity := 2, status := EventStatus.SCHEDULED,
    created_by := 1 }

/-- A small database: one department, one coordinator (user 1), three
volunteers (users 2, 3, 4), one open event, nothing else. -/
def demoState : HubState :=
  { departments := [1],
    profiles := [{ user := 1, is_coordinator := true, department := some 1, phone := "" },
                 { user := 2, is_coordinator := false, department := none, phone := "" },
                 { user := 3, is_coordinator := false, department := none, phone := "" },
                 { user := 4, is_coordinator := false, department := none, phone := "" }],
    events := [demoEvent],
    signups := [], contribs := [], nextSignupId := 0, nextContribId := 0 }

/-- Three volunteers race for the two spots of the demo event. -/
def demoOps : List HubOp :=
  [HubOp.signup 2 0, HubOp.signup 3 0, HubOp.signup 4 0]

/-- A database where user 2 already has a CANCELLED signup row for the
demo event and no other signup rows exist. -/
def exState : HubState :=
  { departments := [],
    profiles := [],
    events := [demoEvent],
    signups := [{ id := 0, user := 2, event := 0, status := SignupStatus.CANCELLED }],
    contribs := [], nextSignupId := 1, nextContribId := 0 }

/-- C1: for every event with capacity above zero, after any sequence of
modelled requests (in particular any sequence of signup and cancel
operations) run one at a time, the number of CONFIRMED signup rows stays
at or below the capacity; moreover signup never creates a CONFIRMED row
once the confirmed count has reached capacity, in any state at all. -/
theorem capacity_never_exceeded (st : HubState) (ops : List HubOp) (hinv : capInv st) :
    capInv (runOps st ops) ∧
    (∀ (st2 : HubState) (u : UserId) (e : EventId) (ev : Event),
      st2.events.find? (fun x => x.id = e) = some ev →
      0 < ev.capacity →
      ev.capacity ≤ confirmedCount st2.signups e →
      ∀ r, event_signup st2 u e ≠ .ok r) := by
  refine ⟨capInv_runOps st ops hinv, ?_⟩
  intro st2 u e ev hev hcap hge r hok
  obtain ⟨ev', hfind, _, hfull, _, _⟩ := event_signup_ok_elim hok
  rw [hev] at hfind
  have hee : ev' = ev := (Option.some.inj hfind).symm
  subst hee
  have hid : ev'.id = e := by simpa using List.find?_some hev
  rw [hid] at hfull
  exact hfull ⟨by omega, hge⟩

/-- Witness for C1: the capacity invariant holds after three volunteers
try to take the two spots of the demo event. -/
theorem capacity_never_exceeded_witness : capInv (runOps demoState demoOps) :=
  (capacity_never_exceeded demoState demoOps
    (capInv_of_capInvB demoState (by decide))).1

/-- C2 (amended): signup fails with AlreadySignedUp when a CONFIRMED row
exists for the pair; otherwise fails with EventFull when the event has a
nonzero capacity already reached; otherwise, when no Signup row of any
status exists for the pair, creates exactly one new CONFIRMED row; and
otherwise (a CANCELLED row exists) the insert trips the unique
(user, event) constraint and the request fails with the uncaught
integrity error, leaving the state unchanged. -/
theorem signup_case_analysis (st : HubState) (u : UserId) (pk : EventId) (ev : Event)
    (hev : st.events.find? (fun x => x.id = pk) = some ev) :
    (has_confirmed_row st u pk = true →
      event_signup st u pk = .error .alreadySignedUp) ∧
    (has_confirmed_row st u pk = false → ev.capacity ≠ 0 →
      ev.capacity ≤ confirmedCount st.signups pk →
      event_signup st u pk = .error .eventFull) ∧
    (has_confirmed_row st u pk = false →
      ¬ (ev.capacity ≠ 0 ∧ ev.capacity ≤ confirmedCount st.signups pk) →
      has_any_row st u pk = false →
      event_signup st u pk =
        .ok { st with
                signups := { id := st.nextSignupId, user := u, event := pk,
                             status := SignupStatus.CONFIRMED } :: st.signups,
                nextSignupId := st.nextSignupId + 1 }) ∧
    (has_confirmed_row st u pk = false →
      ¬ (ev.capacity ≠ 0 ∧ ev.capacity ≤ confirmedCount st.signups pk) →
      has_any_row st u pk = true →
      event_signup st u pk = .error .uniqueViolation) := by
  have hid : ev.id = pk := by simpa using List.find?_some hev
  refine ⟨?_, ?_, ?_, ?_⟩
  · intro h1
    simp only [event_signup, hev, hid]
    rw [if_pos h1]
  · intro h1 h2 h3
    simp only [event_signup, hev, hid]
    rw [if_neg (by simp [h1]), if_pos ⟨h2, h3⟩]
  · intro h1 h2 h3
    simp only [event_signup, hev, hid]
    rw [if_neg (by simp [h1]), if_neg h2, if_neg (by simp [h3])]
  · intro h1 h2 h3
    simp only [event_signup, hev, hid]
    rw [if_neg (by simp [h1]), if_neg h2, if_pos h3]

/-- Witness for C2: the case analysis applied to the demo event in the
demo database. -/
theorem signup_case_analysis_witness :
    demoState.events.find? (fun x => x.id = 0) = some demoEvent ∧
    (has_confirmed_row demoState 2 0 = false →
      ¬ (demoEvent.capacity ≠ 0 ∧ demoEvent.capacity ≤ confirmedCount demoState.signups 0) →
      has_any_row demoState 2 0 = false →
      event_signup demoState 2 0 =
        .ok { demoState with
                signups := { id := demoState.nextSignupId, user := 2, event := 0,
                             status := SignupStatus.CONFIRMED } :: demoState.signups,
                nextSignupId := demoState.nextSignupId + 1 }) :=
  ⟨by decide, (signup_case_analysis demoState 2 0 demoEvent (by decide)).2.2.1⟩

/-- C2 counterexample: in a state holding only a CANCELLED row for the
pair, no CONFIRMED row exists and the event is not full, yet signup does
not create a row: it fails with the uniqueness integrity error. -/
theorem signup_after_cancel_counterexample :
    has_confirmed_row exState 2 0 = false ∧
    Event.is_full demoEvent exState.signups = false ∧
    event_signup exState 2 0 = Except.error HubError.uniqueViolation := by
  refine ⟨by decide, by decide, by rfl⟩

/-- C8: when a CANCELLED row exists for the pair (with no CONFIRMED row
and the event not full), signup does not reactivate it: the fresh insert
trips the unique (user, event) constraint, the request fails with the
uncaught integrity error instead of AlreadySignedUp, the state (hence the
CANCELLED row) is unchanged, and no later sequence of modelled requests
can ever make signup succeed for that pair again. -/
theorem cancelled_row_blocks_resignup (st : HubState) (u : UserId) (e : EventId)
    (ev : Event)
    (hsig : sigInv st)
    (hev : st.events.find? (fun x => x.id = e) = some ev)
    (hcanc : st.signups.any
      (fun s => s.user = u ∧ s.event = e ∧ s.status = SignupStatus.CANCELLED) = true)
    (hnoconf : has_confirmed_row st u e = false)
    (hnotfull : ¬ (ev.capacity ≠ 0 ∧ ev.capacity ≤ confirmedCount st.signups e)) :
    event_signup st u e = .error .uniqueViolation ∧
    event_signup st u e ≠ .error .alreadySignedUp ∧
    applyOp st (.signup u e) = st ∧
    (∀ ops r, event_signup (runOps st ops) u e ≠ .ok r) := by
  have hany : has_any_row st u e = true := by
    obtain ⟨a, ha, hpa⟩ := List.any_eq_true.mp hcanc
    rw [decide_eq_true_eq] at hpa
    exact List.any_eq_true.mpr ⟨a, ha, decide_eq_true ⟨hpa.1, hpa.2.1⟩⟩
  have heq : event_signup st u e = .error .uniqueViolation :=
    (signup_case_analysis st u e ev hev).2.2.2 hnoconf hnotfull hany
  refine ⟨heq, by rw [heq]; simp, ?_, ?_⟩
  · simp only [applyOp, heq]
  · intro ops r
    exact event_signup_no_ok_of_any_row (has_any_row_runOps st ops u e hsig hany) r

/-- Witness for C8 at the concrete cancelled-row state. -/
theorem cancelled_row_blocks_resignup_witness :
    has_confirmed_row exState 2 0 = false ∧
    event_signup exState 2 0 = Except.error HubError.uniqueViolation :=
  ⟨by decide,
   (cancelled_row_blocks_resignup exState 2 0 demoEvent
      (sigInv_of_sigInvB exState (by decide)) (by decide) (by decide) (by decide)
      (by decide)).1⟩

/-- A submission and an approval used to exercise the contribution
invariant. -/
def demoC3Ops : List HubOp :=
  [HubOp.submit 2 { event := none, department := some 1, date := 3,
                    hours := some 150, description := "setup work" },
   HubOp.approve 1 0 7]

/-- C3: in every state reachable by modelled requests from a state
satisfying the invariant, a contribution is PENDING exactly when both
approval metadata fields are null; in particular submission creates the
row PENDING with both fields null, approve and reject write both fields,
and moving a row back to PENDING through log_update_status clears both. -/
theorem pending_iff_no_metadata (st : HubState) (ops : List HubOp)
    (hinv : contribInv st) :
    contribInv (runOps st ops) ∧
    (∀ u inp r, contribution_create st u inp = .ok r →
      ∃ c, r.contribs = c :: st.contribs ∧ c.status = ContribStatus.PENDING ∧
        c.approved_by = none ∧ c.approved_at = none) ∧
    (∀ a pk now r, approval_approve st a pk now = .ok r →
      ∀ c ∈ r.contribs, c.id = pk →
        c.status = ContribStatus.APPROVED ∧ c.approved_by = some a ∧
        c.approved_at = some now) ∧
    (∀ a pk reason now r, approval_reject st a pk reason now = .ok r →
      ∀ c ∈ r.contribs, c.id = pk →
        c.status = ContribStatus.REJECTED ∧ c.approved_by = some a ∧
        c.approved_at = some now) ∧
    (∀ c0 a now, (set_status_fields c0 ContribStatus.PENDING a now).approved_by = none ∧
      (set_status_fields c0 ContribStatus.PENDING a now).approved_at = none) := by
  refine ⟨contribInv_runOps st ops hinv, ?_, ?_, ?_, ?_⟩
  · intro u inp r hok
    obtain ⟨p, d, v, _, _, hr⟩ := contribution_create_ok_elim hok
    subst hr
    exact ⟨_, rfl, rfl, rfl, rfl⟩
  · intro a pk now r hok
    obtain ⟨_, c0, _, hr⟩ := approval_approve_ok_elim hok
    subst hr
    intro c hmem hid
    obtain ⟨c1, hc1, heq⟩ := List.mem_map.mp hmem
    by_cases h : c1.id = pk
    · rw [if_pos h] at heq
      rw [← heq]
      exact ⟨rfl, rfl, rfl⟩
    · rw [if_neg h] at heq
      rw [← heq] at hid
      exact absurd hid h
  · intro a pk reason now r hok
    obtain ⟨_, c0, _, hr⟩ := approval_reject_ok_elim hok
    subst hr
    intro c hmem hid
    obtain ⟨c1, hc1, heq⟩ := List.mem_map.mp hmem
    by_cases h : c1.id = pk
    · rw [if_pos h] at heq
      rw [← heq]
      exact ⟨rfl, rfl, rfl⟩
    · rw [if_neg h] at heq
      rw [← heq] at hid
      exact absurd hid h
  · intro c0 a now
    unfold set_status_fields
    rw [if_neg (fun hcond => by
      rcases hcond.1 with h | h <;> exact ContribStatus.noConfusion h)]
    rw [if_pos rfl]
    exact ⟨rfl, rfl⟩

/-- Witness for C3: the invariant holds after a submission and an
approval in the demo database. -/
theorem pending_iff_no_metadata_witness : contribInv (runOps demoState demoC3Ops) :=
  (pending_iff_no_metadata demoState demoC3Ops
    (contribInv_of_contribInvB demoState (by decide))).1

/-- A database whose only contribution is already APPROVED, with
coordinator 1. -/
def c4State : HubState :=
  { departments := [1],
    profiles := [{ user := 1, is_coordinator := true, department := none, phone := "" }],
    events := [], signups := [],
    contribs := [{ id := 0, user := 2, event := none, department := 1, date := 5,
                   hours := 200, description := "", status := ContribStatus.APPROVED,
                   approved_by := some 1, approved_at := some 4, rejection_reason := "" }],
    nextSignupId := 0, nextContribId := 1 }

/-- C4 counterexample: approving a contribution that is not PENDING fails
with the 404 NotFound outcome of the PENDING-scoped lookup, not with the
InvalidState error the claim names. -/
theorem approve_nonpending_counterexample :
    coordinator_required c4State 1 = true ∧
    c4State.contribs.any (fun c => c.id = 0 ∧ c.status ≠ ContribStatus.PENDING) = true ∧
    approval_approve c4State 1 0 9 = Except.error HubError.notFound ∧
    approval_approve c4State 1 0 9 ≠ Except.error HubError.invalidState := by
  refine ⟨by decide, by decide, by rfl, ?_⟩
  intro hcontra
  rw [show approval_approve c4State 1 0 9 = Except.error HubError.notFound from rfl] at hcontra
  simp at hcontra

/-- C4 (amended): run by a coordinator, approve succeeds exactly on rows
that are currently PENDING, writing status APPROVED with the coordinator
and the time into the approval metadata; on a second approve, and on any
contribution that is not PENDING, the PENDING-scoped lookup fails and the
request fails with NotFound (the 404 outcome, not InvalidState), leaving
the database unchanged. -/
theorem approve_state_machine (st : HubState) (actor : UserId) (pk : ContribId)
    (now : Time) (hc : coordinator_required st actor = true) :
    (∀ c0, st.contribs.find? (fun c => c.id = pk ∧ c.status = ContribStatus.PENDING) = some c0 →
      approval_approve st actor pk now =
        .ok { st with
                contribs := st.contribs.map (fun c =>
                  if c.id = pk then
                    { c0 with status := ContribStatus.APPROVED,
                              approved_by := some actor, approved_at := some now }
                  else c) } ∧
      (∀ now2,
        approval_approve
          { st with
              contribs := st.contribs.map (fun c =>
                if c.id = pk then
                  { c0 with status := ContribStatus.APPROVED,
                            approved_by := some actor, approved_at := some now }
                else c) } actor pk now2 = .error .notFound)) ∧
    (st.contribs.find? (fun c => c.id = pk ∧ c.status = ContribStatus.PENDING) = none →
      approval_approve st actor pk now = .error .notFound ∧
      applyOp st (.approve actor pk now) = st) := by
  constructor
  · intro c0 hfind
    constructor
    · unfold approval_approve
      rw [if_neg (not_not_intro hc), hfind]
    · intro now2
      have hc2 : coordinator_required
          { st with
              contribs := st.contribs.map (fun c =>
                if c.id = pk then
                  { c0 with status := ContribStatus.APPROVED,
                            approved_by := some actor, approved_at := some now }
                else c) } actor = true := hc
      have hnone : (st.contribs.map (fun c =>
          if c.id = pk then
            { c0 with status := ContribStatus.APPROVED,
                      approved_by := some actor, approved_at := some now }
          else c)).find? (fun c => c.id = pk ∧ c.status = ContribStatus.PENDING) = none := by
        apply List.find?_eq_none.mpr
        intro c hmem hcontra
        rw [decide_eq_true_eq] at hcontra
        obtain ⟨c1, hc1, heq⟩ := List.mem_map.mp hmem
        by_cases h : c1.id = pk
        · rw [if_pos h] at heq
          rw [← heq] at hcontra
          exact ContribStatus.noConfusion hcontra.2
        · rw [if_neg h] at heq
          rw [← heq] at hcontra
          exact h hcontra.1
      unfold approval_approve
      rw [if_neg (not_not_intro hc2), hnone]
  · intro hnone
    have heq : approval_approve st actor pk now = .error .notFound := by
      unfold approval_approve
      rw [if_neg (not_not_intro hc), hnone]
    exact ⟨heq, by simp [applyOp, heq]⟩

/-- Witness for C4 at the concrete database with an APPROVED row: the
PENDING-scoped lookup finds nothing and the request fails with NotFound
leaving the state unchanged. -/
theorem approve_state_machine_witness :
    coordinator_required c4State 1 = true ∧
    (approval_approve c4State 1 0 9 = Except.error HubError.notFound ∧
      applyOp c4State (.approve 1 0 9) = c4State) :=
  ⟨by decide, (approve_state_machine c4State 1 0 9 (by decide)).2 (by rfl)⟩

/-- A rejected contribution row with a stored rejection reason. -/
def c5Row : Contribution :=
  { id := 0, user := 2, event := none, department := 1, date := 5, hours := 300,
    description := "", status := ContribStatus.REJECTED, approved_by := some 1,
    approved_at := some 6, rejection_reason := "insufficient evidence" }

/-- A database whose only contribution is the rejected row, with
coordinator 1. -/
def c5State : HubState :=
  { departments := [1],
    profiles := [{ user := 1, is_coordinator := true, department := none, phone := "" }],
    events := [], signups := [], contribs := [c5Row],
    nextSignupId := 0, nextContribId := 1 }

/-- C5: log_update_status run by a coordinator on an existing row accepts
any of the three statuses from any current status; the status field takes
the requested value; moving from PENDING into APPROVED or REJECTED writes
the actor and the time into the approval metadata; moving to PENDING
clears both while leaving rejection_reason untouched (stale). -/
theorem set_status_transition (st : HubState) (actor : UserId) (pk : ContribId)
    (s : String) (ns : ContribStatus) (now : Time) (c0 : Contribution)
    (hc : coordinator_required st actor = true)
    (hparse : parse_status s = some ns)
    (hfind : st.contribs.find? (fun c => c.id = pk) = some c0) :
    log_update_status st actor pk s now =
      .ok { st with
              contribs := st.contribs.map (fun c =>
                if c.id = pk then set_status_fields c0 ns actor now else c) } ∧
    (set_status_fields c0 ns actor now).status = ns ∧
    (c0.status = ContribStatus.PENDING →
      (ns = ContribStatus.APPROVED ∨ ns = ContribStatus.REJECTED) →
      (set_status_fields c0 ns actor now).approved_by = some actor ∧
      (set_status_fields c0 ns actor now).approved_at = some now) ∧
    (ns = ContribStatus.PENDING →
      (set_status_fields c0 ns actor now).approved_by = none ∧
      (set_status_fields c0 ns actor now).approved_at = none ∧
      (set_status_fields c0 ns actor now).rejection_reason = c0.rejection_reason) := by
  refine ⟨?_, ?_, ?_, ?_⟩
  · unfold log_update_status
    rw [if_neg (not_not_intro hc), hfind, hparse]
  · unfold set_status_fields
    split
    · rfl
    · split
      · rfl
      · rfl
  · intro hp hns
    unfold set_status_fields
    rw [if_pos ⟨hns, hp⟩]
    exact ⟨rfl, rfl⟩
  · intro hns
    subst hns
    unfold set_status_fields
    rw [if_neg (fun hcond => by
      rcases hcond.1 with h | h <;> exact ContribStatus.noConfusion h)]
    rw [if_pos rfl]
    exact ⟨rfl, rfl, rfl⟩

/-- Witness for C5: reverting the rejected demo row to PENDING clears the
approval metadata and keeps the stale rejection reason. -/
theorem set_status_transition_witness :
    (set_status_fields c5Row ContribStatus.PENDING 1 9).approved_by = none ∧
    (set_status_fields c5Row ContribStatus.PENDING 1 9).approved_at = none ∧
    (set_status_fields c5Row ContribStatus.PENDING 1 9).rejection_reason =
      c5Row.rejection_reason :=
  (set_status_transition c5State 1 0 "PENDING" ContribStatus.PENDING 9 c5Row
    (by decide) (by rfl) (by rfl)).2.2.2 rfl

/-- A database with one department and one volunteer, no contributions. -/
def c6State : HubState :=
  { departments := [1],
    profiles := [{ user := 2, is_coordinator := false, department := none, phone := "" }],
    events := [], signups := [], contribs := [], nextSignupId := 0, nextContribId := 0 }

/-- A submission claiming minus one hour (stored as -100 hundredths). -/
def c6NegInput : SubmitInput :=
  { event := none, department := some 1, date := 5, hours := some (-100),
    description := "" }

/-- A submission claiming zero hours. -/
def c6ZeroInput : SubmitInput :=
  { event := none, department := some 1, date := 5, hours := some 0,
    description := "" }

/-- C6: contrary to the claim (and to the view's own docstring, which
lists hours-must-be-positive among its validation rules), no code path
validates that hours are positive: neither ContributionForm nor the model
field carries such a validator, the widget min attribute is client-side
only, and the request with hours of -1.00 (and with 0) passes validation
and creates a PENDING record. -/
theorem nonpositive_hours_accepted :
    contribution_create c6State 2 c6NegInput =
      Except.ok { c6State with
                    contribs := [{ id := 0, user := 2, event := none, department := 1,
                                   date := 5, hours := -100, description := "",
                                   status := ContribStatus.PENDING, approved_by := none,
                                   approved_at := none, rejection_reason := "" }],
                    nextContribId := 1 } ∧
    contribution_create c6State 2 c6ZeroInput =
      Except.ok { c6State with
                    contribs := [{ id := 0, user := 2, event := none, department := 1,
                                   date := 5, hours := 0, description := "",
                                   status := ContribStatus.PENDING, approved_by := none,
                                   approved_at := none, rejection_reason := "" }],
                    nextContribId := 1 } ∧
    (-100 : Int) < 0 :=
  ⟨rfl, rfl, by decide⟩

/-- If the cleaned data exists, the event choice passed the queryset
restriction. -/
theorem event_choice_of_cleaned {st : HubState} {u : UserId} {isC : Bool}
    {inp : SubmitInput} {d : DeptId} {v : Int}
    (h : form_cleaned_data st u isC inp = some (d, v)) :
    event_choice_ok st u isC inp.event = true := by
  unfold form_cleaned_data at h
  split at h
  · next d' v' hd hv =>
    split at h
    · next hcond => exact hcond.2.2
    · exact absurd h (by simp)
  · exact absurd h (by simp)

/-- A failing event choice makes the whole form invalid. -/
theorem form_cleaned_none_of_event_choice {st : HubState} {u : UserId} {isC : Bool}
    {inp : SubmitInput}
    (hbad : event_choice_ok st u isC inp.event = false) :
    form_cleaned_data st u isC inp = none := by
  unfold form_cleaned_data
  split
  · next d' v' hd hv =>
    rw [if_neg]
    intro hcond
    have hch := hcond.2.2
    rw [hbad] at hch
    exact Bool.noConfusion hch
  · rfl

/-- An event that is not SCHEDULED is outside the form's event queryset. -/
theorem event_choice_ok_false_of_unscheduled {st : HubState} {u : UserId} {isC : Bool}
    {eid : EventId} {ev : Event}
    (hev : st.events.find? (fun x => x.id = eid) = some ev)
    (hst : ev.status ≠ EventStatus.SCHEDULED) :
    event_choice_ok st u isC (some eid) = false := by
  simp only [event_choice_ok]
  rw [hev]
  simp [hst]

/-- For a non-coordinator without a CONFIRMED signup, the event is outside
the form's event queryset. -/
theorem event_choice_ok_false_of_not_signed {st : HubState} {u : UserId}
    {eid : EventId} {isC : Bool} (hisC : isC = false)
    (hconf : has_confirmed_row st u eid = false) :
    event_choice_ok st u isC (some eid) = false := by
  subst hisC
  simp only [event_choice_ok]
  split
  · rfl
  · next ev hev => simp [hconf]

/-- A passing event choice names a SCHEDULED event found in the database,
and the submitter is a coordinator or holds a CONFIRMED signup. -/
theorem event_choice_ok_some_elim {st : HubState} {u : UserId} {isC : Bool}
    {eid : EventId}
    (h : event_choice_ok st u isC (some eid) = true) :
    ∃ ev, st.events.find? (fun x => x.id = eid) = some ev ∧
      ev.status = EventStatus.SCHEDULED ∧
      (isC || has_confirmed_row st u eid) = true := by
  simp only [event_choice_ok] at h
  split at h
  · exact absurd h (by simp)
  · next ev hev =>
    rw [Bool.and_eq_true] at h
    exact ⟨ev, hev, of_decide_eq_true h.1, h.2⟩

/-- A COMPLETED (not SCHEDULED) event. -/
def c7Event : Event :=
  { id := 0, title := "Gala", description := "", department := none,
    date := 3, location := "Hall", capacity := 0, status := EventStatus.COMPLETED,
    created_by := 1 }

/-- A database holding the completed event, one department and
coordinator 1. -/
def c7State : HubState :=
  { departments := [1],
    profiles := [{ user := 1, is_coordinator := true, department := none, phone := "" }],
    events := [c7Event], signups := [], contribs := [],
    nextSignupId := 0, nextContribId := 0 }

/-- A submission referencing the completed event with otherwise valid
fields. -/
def c7Input : SubmitInput :=
  { event := some 0, department := some 1, date := 4, hours := some 200,
    description := "catering" }

/-- C7 counterexample: referencing an event that is not SCHEDULED makes
the submission fail with the form's generic validation error (the event
field's choices are restricted to SCHEDULED events), not with the
EventNotScheduled error the claim names. -/
theorem unscheduled_event_counterexample :
    (c7State.events.find? (fun x => x.id = 0)).map Event.status =
      some EventStatus.COMPLETED ∧
    contribution_create c7State 1 c7Input = Except.error HubError.validationError ∧
    contribution_create c7State 1 c7Input ≠ Except.error HubError.eventNotScheduled := by
  refine ⟨by decide, by rfl, ?_⟩
  intro hcontra
  rw [show contribution_create c7State 1 c7Input = Except.error HubError.validationError
        from rfl] at hcontra
  simp at hcontra

/-- C7 (amended): a submission referencing an event fails, creating no
record, unless the event is SCHEDULED, and for a non-coordinator unless a
CONFIRMED signup exists for the pair - but in both cases the failure is
the form's invalid-choice validation error, because the event field's
queryset is restricted to SCHEDULED events (and for non-coordinators to
events with a CONFIRMED signup); the EventNotScheduled and NotSignedUp
branches of the view are unreachable; every successful submission creates
its record in status PENDING. -/
theorem submit_event_guards (st : HubState) (u : UserId) (inp : SubmitInput)
    (p : Profile) (hp : findProfile st u = some p) :
    (∀ eid ev, inp.event = some eid →
      st.events.find? (fun x => x.id = eid) = some ev →
      ev.status ≠ EventStatus.SCHEDULED →
      contribution_create st u inp = .error .validationError) ∧
    (∀ eid, inp.event = some eid → p.is_coordinator = false →
      has_confirmed_row st u eid = false →
      contribution_create st u inp = .error .validationError) ∧
    (∀ r, contribution_create st u inp = .ok r →
      ∃ c, r.contribs = c :: st.contribs ∧ c.status = ContribStatus.PENDING) ∧
    contribution_create st u inp ≠ .error .eventNotScheduled ∧
    contribution_create st u inp ≠ .error .notSignedUp := by
  have keyNe : ∀ e : HubError,
      (e = HubError.eventNotScheduled ∨ e = HubError.notSignedUp) →
      contribution_create st u inp ≠ .error e := by
    intro e hor heq
    unfold contribution_create at heq
    simp only [hp] at heq
    split at heq
    · rcases hor with rfl | rfl <;> simp at heq
    · next d v hclean =>
      have hchoice := event_choice_of_cleaned hclean
      split at heq
      · next eid heid =>
        rw [heid] at hchoice
        obtain ⟨ev, hev, hsched, hcs⟩ := event_choice_ok_some_elim hchoice
        split at heq
        · rw [hev] at *
          simp at *
        · next ev2 hev2 =>
          rw [hev] at hev2
          have hevv : ev = ev2 := Option.some.inj hev2
          subst hevv
          split at heq
          · next hbad => exact hbad hsched
          · split at heq
            · next hns =>
              rcases Bool.or_eq_true_iff.mp hcs with hcoord | hconf
              · exact hns.1 hcoord
              · exact hns.2 hconf
            · rcases hor with rfl | rfl <;> simp at heq
      · rcases hor with rfl | rfl <;> simp at heq
  refine ⟨?_, ?_, ?_, keyNe _ (Or.inl rfl), keyNe _ (Or.inr rfl)⟩
  · intro eid ev he hev hst
    have hbad := @event_choice_ok_false_of_unscheduled st u p.is_coordinator eid ev hev hst
    have hnone : form_cleaned_data st u p.is_coordinator inp = none :=
      form_cleaned_none_of_event_choice (by rw [he]; exact hbad)
    unfold contribution_create
    simp only [hp, hnone]
  · intro eid he hco hconf
    have hbad := @event_choice_ok_false_of_not_signed st u eid p.is_coordinator hco hconf
    have hnone : form_cleaned_data st u p.is_coordinator inp = none :=
      form_cleaned_none_of_event_choice (by rw [he]; exact hbad)
    unfold contribution_create
    simp only [hp, hnone]
  · intro r hok
    obtain ⟨p2, d, v, _, _, hr⟩ := contribution_create_ok_elim hok
    subst hr
    exact ⟨_, rfl, rfl⟩

/-- Witness for C7 at the completed-event database: the submission fails
with the form validation error. -/
theorem submit_event_guards_witness :
    findProfile c7State 1 = some { user := 1, is_coordinator := true,
                                   department := none, phone := "" } ∧
    contribution_create c7State 1 c7Input = Except.error HubError.validationError :=
  ⟨by decide,
   (submit_event_guards c7State 1 c7Input
      { user := 1, is_coordinator := true, department := none, phone := "" }
      (by decide)).1 0 c7Event (by decide) (by decide) (by decide)⟩

/-- C9: a coordinator demoting themselves is refused (the spec's
PermissionDenied outcome) and the state, hence their own is_coordinator
flag, is unchanged; demoting any other existing user succeeds and sets
that user's is_coordinator flag to false. -/
theorem self_demotion_refused (st : HubState) (actor : UserId) (ap : Profile)
    (hap : findProfile st actor = some ap) (hc : ap.is_coordinator = true) :
    coordinator_management st actor (some actor) "demote" =
      .error .permissionDenied ∧
    applyOp st (.manage actor (some actor) "demote") = st ∧
    (∀ uid tp, uid ≠ actor → findProfile st uid = some tp →
      coordinator_management st actor (some uid) "demote" =
        .ok { st with profiles := st.profiles.map (fun p =>
                if p.user = uid then { tp with is_coordinator := false } else p) } ∧
      (∀ q ∈ st.profiles.map (fun p =>
          if p.user = uid then { tp with is_coordinator := false } else p),
        q.user = uid → q.is_coordinator = false)) := by
  have hcr : coordinator_required st actor = true := by
    unfold coordinator_required
    rw [hap]
    exact hc
  have heq1 : coordinator_management st actor (some actor) "demote" =
      .error .permissionDenied := by
    unfold coordinator_management
    rw [if_neg (not_not_intro hcr)]
    simp [hap]
  refine ⟨heq1, by simp [applyOp, heq1], ?_⟩
  intro uid tp huid htp
  constructor
  · unfold coordinator_management
    rw [if_neg (not_not_intro hcr)]
    simp [hap, htp, huid]
  · intro q hq hquser
    obtain ⟨p1, hp1, heqq⟩ := List.mem_map.mp hq
    by_cases hpu : p1.user = uid
    · rw [if_pos hpu] at heqq
      rw [← heqq]
    · rw [if_neg hpu] at heqq
      rw [← heqq] at hquser
      exact absurd hquser hpu

/-- Witness for C9 in the demo database: coordinator 1 cannot demote
themselves and the state is unchanged. -/
theorem self_demotion_refused_witness :
    coordinator_management demoState 1 (some 1) "demote" =
      Except.error HubError.permissionDenied ∧
    applyOp demoState (.manage 1 (some 1) "demote") = demoState :=
  ⟨(self_demotion_refused demoState 1
      { user := 1, is_coordinator := true, department := some 1, phone := "" }
      (by decide) (by rfl)).1,
   (self_demotion_refused demoState 1
      { user := 1, is_coordinator := true, department := some 1, phone := "" }
      (by decide) (by rfl)).2.1⟩

/-- C10: promoting sets the target's is_coordinator flag and, when the
acting coordinator has a department, overwrites the target's department
with it (otherwise the department is untouched); demoting only clears the
flag; in both cases the target's other profile fields (user link, phone)
and every other user's profile row are unchanged. -/
theorem promote_demote_frame (st : HubState) (actor uid : UserId) (ap tp : Profile)
    (hap : findProfile st actor = some ap) (hc : ap.is_coordinator = true)
    (htp : findProfile st uid = some tp) :
    (coordinator_management st actor (some uid) "promote" =
      .ok { st with profiles := st.profiles.map (fun p =>
              if p.user = uid then
                { tp with is_coordinator := true,
                          department := if ap.department.isSome = true
                                        then ap.department else tp.department }
              else p) } ∧
      (∀ q ∈ st.profiles.map (fun p =>
          if p.user = uid then
            { tp with is_coordinator := true,
                      department := if ap.department.isSome = true
                                    then ap.department else tp.department }
          else p),
        q.user = uid →
        q.is_coordinator = true ∧ q.user = tp.user ∧ q.phone = tp.phone ∧
        (ap.department.isSome = true → q.department = ap.department) ∧
        (ap.department = none → q.department = tp.department)) ∧
      (∀ q ∈ st.profiles.map (fun p =>
          if p.user = uid then
            { tp with is_coordinator := true,
                      department := if ap.department.isSome = true
                                    then ap.department else tp.department }
          else p),
        q.user ≠ uid → q ∈ st.profiles)) ∧
    (uid ≠ actor →
      coordinator_management st actor (some uid) "demote" =
        .ok { st with profiles := st.profiles.map (fun p =>
                if p.user = uid then { tp with is_coordinator := false } else p) } ∧
      (∀ q ∈ st.profiles.map (fun p =>
          if p.user = uid then { tp with is_coordinator := false } else p),
        q.user = uid →
        q.is_coordinator = false ∧ q.user = tp.user ∧ q.phone = tp.phone ∧
        q.department = tp.department) ∧
      (∀ q ∈ st.profiles.map (fun p =>
          if p.user = uid then { tp with is_coordinator := false } else p),
        q.user ≠ uid → q ∈ st.profiles)) := by
  have hcr : coordinator_required st actor = true := by
    unfold coordinator_required
    rw [hap]
    exact hc
  have htpu : tp.user = uid := by simpa using List.find?_some htp
  refine ⟨⟨?_, ?_, ?_⟩, fun huid => ⟨?_, ?_, ?_⟩⟩
  · unfold coordinator_management
    rw [if_neg (not_not_intro hcr)]
    simp [hap, htp]
  · intro q hq hquser
    obtain ⟨p1, hp1, heqq⟩ := List.mem_map.mp hq
    by_cases hpu : p1.user = uid
    · rw [if_pos hpu] at heqq
      rw [← heqq]
      refine ⟨rfl, rfl, rfl, ?_, ?_⟩
      · intro hsome
        show (if ap.department.isSome = true then ap.department else tp.department) =
          ap.department
        rw [if_pos hsome]
      · intro hnone
        show (if ap.department.isSome = true then ap.department else tp.department) =
          tp.department
        rw [if_neg]
        rw [hnone]
        simp
    · rw [if_neg hpu] at heqq
      rw [← heqq] at hquser
      exact absurd hquser hpu
  · intro q hq hquser
    obtain ⟨p1, hp1, heqq⟩ := List.mem_map.mp hq
    by_cases hpu : p1.user = uid
    · rw [if_pos hpu] at heqq
      rw [← heqq] at hquser
      exact absurd htpu hquser
    · rw [if_neg hpu] at heqq
      rw [← heqq]
      exact hp1
  · unfold coordinator_management
    rw [if_neg (not_not_intro hcr)]
    simp [hap, htp, huid]
  · intro q hq hquser
    obtain ⟨p1, hp1, heqq⟩ := List.mem_map.mp hq
    by_cases hpu : p1.user = uid
    · rw [if_pos hpu] at heqq
      rw [← heqq]
      exact ⟨rfl, rfl, rfl, rfl⟩
    · rw [if_neg hpu] at heqq
      rw [← heqq] at hquser
      exact absurd hquser hpu
  · intro q hq hquser
    obtain ⟨p1, hp1, heqq⟩ := List.mem_map.mp hq
    by_cases hpu : p1.user = uid
    · rw [if_pos hpu] at heqq
      rw [← heqq] at hquser
      exact absurd htpu hquser
    · rw [if_neg hpu] at heqq
      rw [← heqq]
      exact hp1

/-- The coordinator profile of the demo database. -/
def demoCoord : Profile :=
  { user := 1, is_coordinator := true, department := some 1, phone := "" }

/-- The first volunteer profile of the demo database. -/
def demoVolunteer : Profile :=
  { user := 2, is_coordinator := false, department := none, phone := "" }

/-- Witness for C10 in the demo database: coordinator 1 (department 1)
promotes volunteer 2, whose profile gains the flag and the coordinator's
department. -/
theorem promote_demote_frame_witness :
    findProfile demoState 2 = some demoVolunteer ∧
    coordinator_management demoState 1 (some 2) "promote" =
      .ok { demoState with profiles := demoState.profiles.map (fun p =>
              if p.user = 2 then
                { demoVolunteer with
                    is_coordinator := true,
                    department := if demoCoord.department.isSome = true
                                  then demoCoord.department
                                  else demoVolunteer.department }
              else p) } :=
  ⟨by decide,
   (promote_demote_frame demoState 1 2 demoCoord demoVolunteer
      (by decide) (by rfl) (by decide)).1.1⟩
